import Mathlib

/-!
Verification of the tool-calling control loop of the `deep-agents` repository.

The embedding follows the source files:
* `src/sdk/interfaces/messages.ts` — the boundary `Message` type;
* `src/sdk/interfaces/tools.ts` — `ToolCall`, `ToolResponse`, `MessageWithTool`,
  `ChatWithToolsResponse`, `ToolLoopOptions`, `ToolLoopResult`;
* `src/sdk/utils/tool-loop.ts` — `executeToolLoop`.

Modelling conventions:
* JavaScript `unknown` values carried in `ToolResponse.result` are modelled by
  the small `JsonValue` type, with JavaScript truthiness (`jsonFalsy`) and
  `JSON.stringify` (`jsonStringify`, string escaping elided) made explicit.
* The async handler `onToolCall : (toolCall) => Promise<ToolResponse>` is
  modelled as a total function into `Except String ToolResponse`: `Except.error e`
  models a rejected promise / thrown error whose rendered message is `e`
  (the source renders it with `error instanceof Error ? error.message : String(error)`).
* The provider's `generateChatWithTools` is modelled as a function from the
  message list to a `ChatWithToolsResponse`.  Within one `executeToolLoop` run
  the other request fields (`model`, `tools`, `maxTokens`, `systemPrompt`,
  `maxToolCalls`) are constant, so they are absorbed into the provider
  function; the messages list is the only varying input.  A provider rejection
  is fatal and propagates uncaught, so runs that complete are runs in which
  every provider call resolved; those are the runs modelled here.
* The TypeScript `while` loop is written as structural recursion on a fuel
  argument.  `executeToolLoop` passes `maxToolCalls.toNat + 1` fuel, which is
  sufficient because the loop guard requires `toolCallCount < maxToolCalls`
  and every iteration that continues increases `toolCallCount` by at least one;
  the fuel-exhaustion branch returns the same state as a failed loop guard.
* The source returns `finalResponse!` (a non-null assertion on a variable that
  is `undefined` when the loop body never ran); the model keeps the honest type
  `Option ChatWithToolsResponse` so that the assertion's violation is visible
  as `none`.
* `providerCalls` counts invocations of `provider.generateChatWithTools`; it is
  observable instrumentation, not program state.
-/

namespace DeepAgents

/-- Role of a boundary `Message` (`interfaces/messages.ts`):
`"system" | "user" | "assistant"`. -/
inductive Role where
  | system
  | user
  | assistant
deriving DecidableEq

/-- Role of a loop-internal `MessageWithTool` (`interfaces/tools.ts`):
`"system" | "user" | "assistant" | "tool"`. -/
inductive RoleWithTool where
  | system
  | user
  | assistant
  | tool
deriving DecidableEq

/-- A JavaScript value carried in a tool result (`result: unknown`). -/
inductive JsonValue where
  | jstr (s : String)
  | jnum (n : Int)
  | jbool (b : Bool)
  | jnull
deriving DecidableEq

/-- JavaScript truthiness test: `v || default` picks the default exactly when
`v` is falsy (`""`, `0`, `false`, `null`/`undefined`). -/
def jsonFalsy : JsonValue → Bool
  | .jstr s => decide (s = "")
  | .jnum n => decide (n = 0)
  | .jbool b => !b
  | .jnull => true

/-- `JSON.stringify` on the modelled values (string escaping elided; none of
the verified properties depend on escape sequences). -/
def jsonStringify : JsonValue → String
  | .jstr s => "\"" ++ s ++ "\""
  | .jnum n => toString n
  | .jbool b => if b then "true" else "false"
  | .jnull => "null"

/-- Boundary `Message` (`interfaces/messages.ts`): exactly the fields
`{role, content}`. -/
structure Message where
  role : Role
  content : String
deriving DecidableEq

/-- `ToolCall` (`interfaces/tools.ts`): `{id, name, arguments}`. -/
structure ToolCall where
  id : String
  name : String
  arguments : List (String × JsonValue)
deriving DecidableEq

/-- `ToolResponse` (`interfaces/tools.ts`): `{id, name, result}`. -/
structure ToolResponse where
  id : String
  name : String
  result : JsonValue
deriving DecidableEq

/-- Loop-internal `MessageWithTool` (`interfaces/tools.ts`): a `Message` whose
role may also be `"tool"`, extended with optional `toolName`, `toolCallId`
and `toolCalls` fields. -/
structure MessageWithTool where
  role : RoleWithTool
  content : String
  toolName : Option String := none
  toolCallId : Option String := none
  toolCalls : Option (List ToolCall) := none
deriving DecidableEq

/-- `ChatWithToolsResponse` (`interfaces/tools.ts`) plus the `text` field the
loop reads (`response.text`); `toolCallCount` and `maxToolCallsReached` are
provider-reported values the loop never inspects. -/
structure ChatWithToolsResponse where
  text : String
  toolCalls : Option (List ToolCall) := none
  toolCallCount : Option Nat := none
  maxToolCallsReached : Option Bool := none
deriving DecidableEq

/-- The caller-supplied tool handler `onToolCall`. -/
abbrev Handler := ToolCall → Except String ToolResponse

/-- A provider's `generateChatWithTools`, as a function of the one request
field that varies across calls within a run (the messages list). -/
abbrev Provider := List MessageWithTool → ChatWithToolsResponse

/-- The `ToolLoopOptions` fields the loop destructures
(`const { onToolCall, maxToolCalls = 10, messages = [] } = options`);
`none` models an absent (undefined) property. -/
structure ToolLoopOptions where
  onToolCall : Option Handler := none
  maxToolCalls : Option Int := none
  messages : Option (List Message) := none

/-- `ToolLoopResult` (`interfaces/tools.ts`).  The source declares
`finalResponse: ChatWithToolsResponse` (non-optional) and produces it with the
non-null assertion `finalResponse!`; the model keeps `Option` so that the
undefined case is representable. -/
structure ToolLoopResult where
  finalResponse : Option ChatWithToolsResponse
  toolCallCount : Nat
  maxToolCallsReached : Bool
  messages : List Message
deriving DecidableEq

/-- Embeds a `Role` into `RoleWithTool` (the identity on the shared tags). -/
def liftRole : Role → RoleWithTool
  | .system => .system
  | .user => .user
  | .assistant => .assistant

/-- `messages.map(msg => ({...msg, role: msg.role}))` (tool-loop.ts line 164):
the initial `Message`s become `MessageWithTool`s with the extra fields absent. -/
def liftMessage (m : Message) : MessageWithTool :=
  { role := liftRole m.role, content := m.content }

/-- The boundary projection of a role:
`msg.role === 'tool' ? 'assistant' : msg.role` (tool-loop.ts line 244). -/
def collapseRole : RoleWithTool → Role
  | .system => .system
  | .user => .user
  | .assistant => .assistant
  | .tool => .assistant

/-- The boundary projection of a message (tool-loop.ts lines 243-246): keep
only `{role, content}`, collapsing the `tool` role to `assistant`. -/
def collapseMessage (m : MessageWithTool) : Message :=
  { role := collapseRole m.role, content := m.content }

/-- Content of a successful tool-result message (tool-loop.ts lines 215-217):
`typeof toolResult?.result === 'string' ? toolResult.result
 : JSON.stringify(toolResult?.result || 'Tool executed successfully')`.
`none` models `toolResult = null`, the case of an absent handler. -/
def serializeToolContent : Option ToolResponse → String
  | some tr =>
    match tr.result with
    | .jstr s => s
    | v => if jsonFalsy v then jsonStringify (.jstr "Tool executed successfully")
           else jsonStringify v
  | none => jsonStringify (.jstr "Tool executed successfully")

/-- The tool-result message pushed on handler success (tool-loop.ts
lines 213-220): `toolCallId` and `toolName` are both set. -/
def toolSuccessMessage (tc : ToolCall) (tr : Option ToolResponse) : MessageWithTool :=
  { role := .tool
    content := serializeToolContent tr
    toolName := some tc.name
    toolCallId := some tc.id }

/-- The tool-result message pushed when the handler throws (tool-loop.ts
lines 222-227): the content names the failing tool and the reason,
`toolCallId` is set, `toolName` is not. -/
def toolErrorMessage (tc : ToolCall) (e : String) : MessageWithTool :=
  { role := .tool
    content := "Error executing tool " ++ tc.name ++ ": " ++ e
    toolCallId := some tc.id }

/-- The assistant message recording a provider turn that requested tool calls
(tool-loop.ts lines 189-193): text plus the full requested list. -/
def assistantMessage (response : ChatWithToolsResponse) : MessageWithTool :=
  { role := .assistant
    content := response.text
    toolCalls := response.toolCalls }

/-- One `try { ... } catch { ... }` body of the batch loop (tool-loop.ts
lines 205-228): run the handler if present and build the resulting
tool-role message. -/
def executeOne (onToolCall : Option Handler) (tc : ToolCall) : MessageWithTool :=
  match onToolCall with
  | none => toolSuccessMessage tc none
  | some h =>
    match h tc with
    | .ok tr => toolSuccessMessage tc (some tr)
    | .error e => toolErrorMessage tc e

/-- Result of processing one batch of requested tool calls. -/
structure BatchResult where
  msgs : List MessageWithTool
  count : Nat
  reached : Bool
deriving DecidableEq

/-- The `for (const toolCall of response.toolCalls)` body (tool-loop.ts
lines 196-229): increment the counter, break (counting but not executing
the current call) once the counter reaches the ceiling, otherwise execute
the call and record its message. -/
def processBatch (onToolCall : Option Handler) (maxToolCalls : Int) :
    List ToolCall → Nat → BatchResult
  | [], count => ⟨[], count, false⟩
  | tc :: rest, count =>
    if maxToolCalls ≤ ((count + 1 : Nat) : Int) then
      ⟨[], count + 1, true⟩
    else
      let br := processBatch onToolCall maxToolCalls rest (count + 1)
      ⟨executeOne onToolCall tc :: br.msgs, br.count, br.reached⟩

/-- The loop state handed back to the tail of `executeToolLoop`:
`conversationMessages`, `toolCallCount`, the `maxToolCallsReached` flag as set
inside the loop body, `finalResponse`, and the number of provider calls made. -/
structure ToolLoopInternal where
  conversation : List MessageWithTool
  toolCallCount : Nat
  reachedFlag : Bool
  finalResponse : Option ChatWithToolsResponse
  providerCalls : Nat
deriving DecidableEq

/-- The `while (toolCallCount < maxToolCalls)` loop (tool-loop.ts
lines 173-235), with fuel making the recursion structural.  The
fuel-exhaustion branch coincides with a failed loop guard and is unreachable
from `executeToolLoopInternal`'s fuel budget. -/
def runLoop (P : Provider) (onToolCall : Option Handler) (maxToolCalls : Int) :
    Nat → List MessageWithTool → Nat → Option ChatWithToolsResponse → Nat →
    ToolLoopInternal
  | 0, conv, count, finalResp, pcalls => ⟨conv, count, false, finalResp, pcalls⟩
  | fuel + 1, conv, count, finalResp, pcalls =>
    if (count : Int) < maxToolCalls then
      let response := P conv
      match response.toolCalls with
      | none => ⟨conv, count, false, some response, pcalls + 1⟩
      | some [] => ⟨conv, count, false, some response, pcalls + 1⟩
      | some (tc :: rest) =>
        let br := processBatch onToolCall maxToolCalls (tc :: rest) count
        let conv' := conv ++ assistantMessage response :: br.msgs
        if br.reached then ⟨conv', br.count, true, some response, pcalls + 1⟩
        else runLoop P onToolCall maxToolCalls fuel conv' br.count
               (some response) (pcalls + 1)
    else ⟨conv, count, false, finalResp, pcalls⟩

/-- `executeToolLoop` up to (but not including) the final
`maxToolCallsReached` update and boundary conversion: apply the option
defaults, lift the initial messages, and run the loop from zero counters. -/
def executeToolLoopInternal (P : Provider) (options : ToolLoopOptions) :
    ToolLoopInternal :=
  let maxToolCalls := options.maxToolCalls.getD 10
  let msgs := options.messages.getD []
  runLoop P options.onToolCall maxToolCalls (maxToolCalls.toNat + 1)
    (msgs.map liftMessage) 0 none 0

/-- `executeToolLoop` (tool-loop.ts lines 157-254): run the loop, apply the
final `if (toolCallCount >= maxToolCalls) maxToolCallsReached = true`
(lines 237-240), and project the conversation to boundary `Message`s
(lines 242-246). -/
def executeToolLoop (P : Provider) (options : ToolLoopOptions) : ToolLoopResult :=
  let maxToolCalls := options.maxToolCalls.getD 10
  let r := executeToolLoopInternal P options
  { finalResponse := r.finalResponse
    toolCallCount := r.toolCallCount
    maxToolCallsReached :=
      r.reachedFlag || decide (maxToolCalls ≤ (r.toolCallCount : Int))
    messages := r.conversation.map collapseMessage }

/-! ### Transcript well-formedness predicate -/

/-- Every tool-role message in the conversation carries a `toolCallId` that
references a `ToolCall.id` listed in the `toolCalls` of some strictly earlier
assistant-role message. -/
def ToolRefOK (conv : List MessageWithTool) : Prop :=
  ∀ (i : Nat) (mi : MessageWithTool), conv[i]? = some mi →
    mi.role = RoleWithTool.tool →
    ∃ (j : Nat) (ma : MessageWithTool) (tcs : List ToolCall) (tc : ToolCall),
      j < i ∧ conv[j]? = some ma ∧
      ma.role = RoleWithTool.assistant ∧ ma.toolCalls = some tcs ∧
      tc ∈ tcs ∧ mi.toolCallId = some tc.id

/-! ### Concrete scenarios used as witnesses and failing inputs -/

/-- A first requested tool call. -/
def tcA : ToolCall := ⟨"a", "toolA", []⟩

/-- A second requested tool call. -/
def tcB : ToolCall := ⟨"b", "toolB", []⟩

/-- A third requested tool call. -/
def tcC : ToolCall := ⟨"c", "toolC", []⟩

/-- A handler that always resolves with a string result. -/
def okHandler : Handler := fun tc => .ok ⟨tc.id, tc.name, .jstr "done"⟩

/-- A handler that throws for `tcA` and resolves for every other call. -/
def failHandler : Handler := fun tc =>
  if tc.id = "a" then .error "boom" else .ok ⟨tc.id, tc.name, .jstr "ok"⟩

/-- An initial user message. -/
def userMsg : Message := ⟨.user, "hi"⟩

/-- A provider that requests the single tool call `tcA` on every turn. -/
def providerAlwaysOne : Provider := fun _ => { text := "t", toolCalls := some [tcA] }

/-- A provider that requests exactly the two tool calls `tcA, tcB` on every
turn. -/
def providerAlwaysTwo : Provider := fun _ => { text := "t", toolCalls := some [tcA, tcB] }

/-- A provider that requests three tool calls on every turn. -/
def providerAlwaysThree : Provider :=
  fun _ => { text := "t", toolCalls := some [tcA, tcB, tcC] }

/-- A provider that never requests tool calls. -/
def providerDone : Provider := fun _ => { text := "done" }

/-- A provider that requests `[tcA, tcB]` on the first turn (when the
conversation is still the single initial message) and finishes afterwards. -/
def providerFailBatch : Provider := fun conv =>
  if conv.length = 1 then { text := "t1", toolCalls := some [tcA, tcB] }
  else { text := "t2" }

/-! ### Unfolding lemmas for the loop -/

/-- Fuel exhaustion returns the current state (same shape as a failed guard). -/
theorem runLoop_zero (P : Provider) (H : Option Handler) (m : Int)
    (conv : List MessageWithTool) (c : Nat) (f : Option ChatWithToolsResponse)
    (p : Nat) : runLoop P H m 0 conv c f p = ⟨conv, c, false, f, p⟩ := rfl

/-- Loop guard fails: return without touching the provider. -/
theorem runLoop_succ_ge (P : Provider) (H : Option Handler) (m : Int)
    (fuel : Nat) (conv : List MessageWithTool) (c : Nat)
    (f : Option ChatWithToolsResponse) (p : Nat) (hge : ¬ (c : Int) < m) :
    runLoop P H m (fuel + 1) conv c f p = ⟨conv, c, false, f, p⟩ := by
  simp only [runLoop, hge, if_false]

/-- Guard holds and the provider requests no tool calls (absent list):
one provider call, then exit with that response. -/
theorem runLoop_succ_lt_none (P : Provider) (H : Option Handler) (m : Int)
    (fuel : Nat) (conv : List MessageWithTool) (c : Nat)
    (f : Option ChatWithToolsResponse) (p : Nat) (hlt : (c : Int) < m)
    (htc : (P conv).toolCalls = none) :
    runLoop P H m (fuel + 1) conv c f p = ⟨conv, c, false, some (P conv), p + 1⟩ := by
  simp only [runLoop, hlt, if_true, htc]

/-- Guard holds and the provider requests an empty tool-call list:
one provider call, then exit with that response. -/
theorem runLoop_succ_lt_nil (P : Provider) (H : Option Handler) (m : Int)
    (fuel : Nat) (conv : List MessageWithTool) (c : Nat)
    (f : Option ChatWithToolsResponse) (p : Nat) (hlt : (c : Int) < m)
    (htc : (P conv).toolCalls = some []) :
    runLoop P H m (fuel + 1) conv c f p = ⟨conv, c, false, some (P conv), p + 1⟩ := by
  simp only [runLoop, hlt, if_true, htc]

/-- Guard holds and the provider requests a non-empty batch: record the
assistant message and the batch results, then either stop (ceiling reached)
or continue the loop. -/
theorem runLoop_succ_lt_cons (P : Provider) (H : Option Handler) (m : Int)
    (fuel : Nat) (conv : List MessageWithTool) (c : Nat)
    (f : Option ChatWithToolsResponse) (p : Nat) (tc : ToolCall)
    (rest : List ToolCall) (hlt : (c : Int) < m)
    (htc : (P conv).toolCalls = some (tc :: rest)) :
    runLoop P H m (fuel + 1) conv c f p =
      if (processBatch H m (tc :: rest) c).reached then
        ⟨conv ++ assistantMessage (P conv) :: (processBatch H m (tc :: rest) c).msgs,
          (processBatch H m (tc :: rest) c).count, true, some (P conv), p + 1⟩
      else
        runLoop P H m fuel
          (conv ++ assistantMessage (P conv) :: (processBatch H m (tc :: rest) c).msgs)
          (processBatch H m (tc :: rest) c).count (some (P conv)) (p + 1) := by
  simp only [runLoop, hlt, if_true, htc]

/-! ### Batch processing lemmas -/

/-- When the whole batch fits strictly below the ceiling, every call is
executed in order and the counter advances by the batch length. -/
theorem processBatch_not_reached (H : Option Handler) (m : Int)
    (tcs : List ToolCall) (c : Nat) (hlen : (c : Int) + tcs.length < m) :
    processBatch H m tcs c = ⟨tcs.map (executeOne H), c + tcs.length, false⟩ := by
  induction tcs generalizing c with
  | nil => simp [processBatch]
  | cons tc rest ih =>
    have hcond : ¬ m ≤ ((c + 1 : Nat) : Int) := by
      simp only [List.length_cons] at hlen
      push_cast at hlen ⊢
      omega
    have hlen' : ((c + 1 : Nat) : Int) + rest.length < m := by
      simp only [List.length_cons] at hlen
      push_cast at hlen ⊢
      omega
    simp only [processBatch, hcond, if_false, ih (c + 1) hlen']
    simp only [List.map_cons, List.length_cons, BatchResult.mk.injEq, true_and,
      and_true]
    omega

/-- When the batch is long enough to reach the ceiling: the counter stops at
exactly the ceiling, the flag is set, and only the calls strictly before the
ceiling-hitting one produced messages — the ceiling-hitting call is counted
but not executed, and the rest of the batch is dropped. -/
theorem processBatch_reached (H : Option Handler) (m : Int)
    (tcs : List ToolCall) (c : Nat) (hc : (c : Int) < m)
    (hlen : m ≤ (c : Int) + tcs.length) :
    processBatch H m tcs c =
      ⟨(tcs.take ((m - c).toNat - 1)).map (executeOne H), c + (m - c).toNat, true⟩ := by
  induction tcs generalizing c with
  | nil =>
    exfalso
    simp only [List.length_nil] at hlen
    omega
  | cons tc rest ih =>
    by_cases h1 : m ≤ ((c + 1 : Nat) : Int)
    · have hm : ((m : Int) - c).toNat = 1 := by push_cast at h1 ⊢; omega
      simp only [processBatch, h1, if_true, hm]
      simp
    · have hc' : ((c + 1 : Nat) : Int) < m := by omega
      have hlen' : m ≤ ((c + 1 : Nat) : Int) + rest.length := by
        simp only [List.length_cons] at hlen
        push_cast at hlen ⊢
        omega
      have h2 : ((m : Int) - c).toNat - 1 = (((m : Int) - (c + 1 : Nat)).toNat - 1) + 1 := by
        push_cast at hc' ⊢
        omega
      simp only [processBatch, h1, if_false, ih (c + 1) hc' hlen']
      simp only [h2, List.take_succ_cons, List.map_cons, BatchResult.mk.injEq,
        true_and, and_true]
      push_cast at hc' ⊢
      omega

/-- With the loop guard satisfied, a batch never pushes the counter past the
ceiling. -/
theorem processBatch_count_le (H : Option Handler) (m : Int)
    (tcs : List ToolCall) (c : Nat) (hc : (c : Int) < m) :
    ((processBatch H m tcs c).count : Int) ≤ m := by
  by_cases hlen : m ≤ (c : Int) + tcs.length
  · rw [processBatch_reached H m tcs c hc hlen]
    push_cast
    omega
  · rw [processBatch_not_reached H m tcs c (by omega)]
    push_cast
    omega

/-- With the loop guard satisfied, the batch flag is set exactly when the
counter has reached the ceiling. -/
theorem processBatch_reached_iff (H : Option Handler) (m : Int)
    (tcs : List ToolCall) (c : Nat) (hc : (c : Int) < m) :
    (processBatch H m tcs c).reached = true ↔
      m ≤ ((processBatch H m tcs c).count : Int) := by
  by_cases hlen : m ≤ (c : Int) + tcs.length
  · rw [processBatch_reached H m tcs c hc hlen]
    simp only [true_iff]
    push_cast
    omega
  · rw [processBatch_not_reached H m tcs c (by omega)]
    simp only [Bool.false_eq_true, false_iff, not_le]
    push_cast
    omega

/-- Every message a batch records is the execution record of one of its
requested tool calls. -/
theorem processBatch_msgs_executeOne (H : Option Handler) (m : Int) :
    ∀ (tcs : List ToolCall) (c : Nat) (mt : MessageWithTool),
      mt ∈ (processBatch H m tcs c).msgs →
      ∃ tc, tc ∈ tcs ∧ mt = executeOne H tc := by
  intro tcs
  induction tcs with
  | nil => intro c mt hmt; simp [processBatch] at hmt
  | cons tc rest ih =>
    intro c mt hmt
    simp only [processBatch] at hmt
    split_ifs at hmt with h1
    · simp at hmt
    · simp only [List.mem_cons] at hmt
      rcases hmt with h | h
      · exact ⟨tc, List.mem_cons_self tc rest, h⟩
      · obtain ⟨tc', htc', heq⟩ := ih (c + 1) mt h
        exact ⟨tc', List.mem_cons_of_mem tc htc', heq⟩

/-- Both branches of the batch body set `toolCallId` to the call's id. -/
theorem executeOne_toolCallId (H : Option Handler) (tc : ToolCall) :
    (executeOne H tc).toolCallId = some tc.id := by
  cases H with
  | none => rfl
  | some h =>
    rcases hh : h tc with e | tr <;>
      simp [executeOne, hh, toolSuccessMessage, toolErrorMessage]

/-- Both branches of the batch body produce a tool-role message. -/
theorem executeOne_role (H : Option Handler) (tc : ToolCall) :
    (executeOne H tc).role = RoleWithTool.tool := by
  cases H with
  | none => rfl
  | some h =>
    rcases hh : h tc with e | tr <;>
      simp [executeOne, hh, toolSuccessMessage, toolErrorMessage]

/-! ### Loop invariants -/

/-- The running tool-call counter never passes the ceiling: if the loop is
entered with a counter at most the ceiling, it returns a counter at most the
ceiling. -/
theorem runLoop_count_le (P : Provider) (H : Option Handler) (m : Int) :
    ∀ (fuel : Nat) (conv : List MessageWithTool) (c : Nat)
      (f : Option ChatWithToolsResponse) (p : Nat),
      (c : Int) ≤ m → (((runLoop P H m fuel conv c f p).toolCallCount : Int)) ≤ m := by
  intro fuel
  induction fuel with
  | zero => intro conv c f p hc; simpa [runLoop_zero] using hc
  | succ fuel ih =>
    intro conv c f p hc
    by_cases hlt : (c : Int) < m
    · rcases htc : (P conv).toolCalls with _ | ⟨_ | ⟨tc, rest⟩⟩
      · rw [runLoop_succ_lt_none P H m fuel conv c f p hlt htc]; exact hc
      · rw [runLoop_succ_lt_nil P H m fuel conv c f p hlt htc]; exact hc
      · rw [runLoop_succ_lt_cons P H m fuel conv c f p tc rest hlt htc]
        split_ifs with hr
        · exact processBatch_count_le H m (tc :: rest) c hlt
        · exact ih _ _ _ _ (processBatch_count_le H m (tc :: rest) c hlt)
    · rw [runLoop_succ_ge P H m fuel conv c f p hlt]; exact hc

/-- If the loop body set the `maxToolCallsReached` flag, the counter did reach
the ceiling. -/
theorem runLoop_reached_imp (P : Provider) (H : Option Handler) (m : Int) :
    ∀ (fuel : Nat) (conv : List MessageWithTool) (c : Nat)
      (f : Option ChatWithToolsResponse) (p : Nat),
      (runLoop P H m fuel conv c f p).reachedFlag = true →
      m ≤ ((runLoop P H m fuel conv c f p).toolCallCount : Int) := by
  intro fuel
  induction fuel with
  | zero => intro conv c f p hflag; simp [runLoop_zero] at hflag
  | succ fuel ih =>
    intro conv c f p hflag
    by_cases hlt : (c : Int) < m
    · rcases htc : (P conv).toolCalls with _ | ⟨_ | ⟨tc, rest⟩⟩
      · rw [runLoop_succ_lt_none P H m fuel conv c f p hlt htc] at hflag ⊢
        simp at hflag
      · rw [runLoop_succ_lt_nil P H m fuel conv c f p hlt htc] at hflag ⊢
        simp at hflag
      · rw [runLoop_succ_lt_cons P H m fuel conv c f p tc rest hlt htc] at hflag ⊢
        split_ifs at hflag ⊢ with hr
        · exact (processBatch_reached_iff H m (tc :: rest) c hlt).mp hr
        · exact ih _ _ _ _ hflag
    · rw [runLoop_succ_ge P H m fuel conv c f p hlt] at hflag ⊢
      simp at hflag

/-- The provider-call counter only grows. -/
theorem runLoop_pcalls_ge (P : Provider) (H : Option Handler) (m : Int) :
    ∀ (fuel : Nat) (conv : List MessageWithTool) (c : Nat)
      (f : Option ChatWithToolsResponse) (p : Nat),
      p ≤ (runLoop P H m fuel conv c f p).providerCalls := by
  intro fuel
  induction fuel with
  | zero => intro conv c f p; simp [runLoop_zero]
  | succ fuel ih =>
    intro conv c f p
    by_cases hlt : (c : Int) < m
    · rcases htc : (P conv).toolCalls with _ | ⟨_ | ⟨tc, rest⟩⟩
      · rw [runLoop_succ_lt_none P H m fuel conv c f p hlt htc]; dsimp only; omega
      · rw [runLoop_succ_lt_nil P H m fuel conv c f p hlt htc]; dsimp only; omega
      · rw [runLoop_succ_lt_cons P H m fuel conv c f p tc rest hlt htc]
        split_ifs with hr
        · dsimp only; omega
        · exact le_trans (by omega) (ih _ _ _ _)
    · rw [runLoop_succ_ge P H m fuel conv c f p hlt]

/-- As long as the guard holds on entry, at least one provider call is made. -/
theorem runLoop_pcalls_lt (P : Provider) (H : Option Handler) (m : Int)
    (fuel : Nat) (conv : List MessageWithTool) (c : Nat)
    (f : Option ChatWithToolsResponse) (p : Nat) (hlt : (c : Int) < m) :
    p + 1 ≤ (runLoop P H m (fuel + 1) conv c f p).providerCalls := by
  rcases htc : (P conv).toolCalls with _ | ⟨_ | ⟨tc, rest⟩⟩
  · rw [runLoop_succ_lt_none P H m fuel conv c f p hlt htc]
  · rw [runLoop_succ_lt_nil P H m fuel conv c f p hlt htc]
  · rw [runLoop_succ_lt_cons P H m fuel conv c f p tc rest hlt htc]
    split_ifs with hr
    · dsimp only; omega
    · exact runLoop_pcalls_ge P H m fuel _ _ _ _

/-- The conversation is append-only: whatever the loop does, its input
conversation survives unchanged as an initial segment of the output. -/
theorem runLoop_conv_extend (P : Provider) (H : Option Handler) (m : Int) :
    ∀ (fuel : Nat) (conv : List MessageWithTool) (c : Nat)
      (f : Option ChatWithToolsResponse) (p : Nat),
      ∃ t, conv ++ t = (runLoop P H m fuel conv c f p).conversation := by
  intro fuel
  induction fuel with
  | zero => intro conv c f p; exact ⟨[], by simp [runLoop_zero]⟩
  | succ fuel ih =>
    intro conv c f p
    by_cases hlt : (c : Int) < m
    · rcases htc : (P conv).toolCalls with _ | ⟨_ | ⟨tc, rest⟩⟩
      · rw [runLoop_succ_lt_none P H m fuel conv c f p hlt htc]
        exact ⟨[], by simp⟩
      · rw [runLoop_succ_lt_nil P H m fuel conv c f p hlt htc]
        exact ⟨[], by simp⟩
      · rw [runLoop_succ_lt_cons P H m fuel conv c f p tc rest hlt htc]
        split_ifs with hr
        · exact ⟨assistantMessage (P conv) :: (processBatch H m (tc :: rest) c).msgs, rfl⟩
        · obtain ⟨t, ht⟩ := ih
            (conv ++ assistantMessage (P conv) :: (processBatch H m (tc :: rest) c).msgs)
            (processBatch H m (tc :: rest) c).count (some (P conv)) (p + 1)
          refine ⟨(assistantMessage (P conv) :: (processBatch H m (tc :: rest) c).msgs) ++ t, ?_⟩
          rw [← List.append_assoc]
          exact ht
    · rw [runLoop_succ_ge P H m fuel conv c f p hlt]
      exact ⟨[], by simp⟩

/-! ### Tool-call reference well-formedness -/

/-- Appending one assistant message followed by tool messages that all
reference its tool-call list preserves the well-formedness invariant. -/
theorem toolRefOK_append (conv : List MessageWithTool) (amsg : MessageWithTool)
    (tms : List MessageWithTool) (tcs : List ToolCall)
    (hconv : ToolRefOK conv) (ha : amsg.role = RoleWithTool.assistant)
    (hatcs : amsg.toolCalls = some tcs)
    (htms : ∀ mt ∈ tms, ∃ tc, tc ∈ tcs ∧ mt.toolCallId = some tc.id) :
    ToolRefOK (conv ++ amsg :: tms) := by
  intro i mi hget hrole
  by_cases hi : i < conv.length
  · rw [List.getElem?_append_left hi] at hget
    obtain ⟨j, ma, tcs', tc, hj, hjget, hma, hmatcs, htc, hid⟩ := hconv i mi hget hrole
    refine ⟨j, ma, tcs', tc, hj, ?_, hma, hmatcs, htc, hid⟩
    rw [List.getElem?_append_left (lt_trans hj hi)]
    exact hjget
  · have hge : conv.length ≤ i := le_of_not_lt hi
    rw [List.getElem?_append_right hge] at hget
    rcases Nat.eq_or_lt_of_le hge with heq | hlt
    · exfalso
      rw [← heq, Nat.sub_self] at hget
      simp only [List.getElem?_cons_zero, Option.some.injEq] at hget
      rw [← hget] at hrole
      rw [ha] at hrole
      exact absurd hrole (by simp)
    · have hsub : i - conv.length = (i - conv.length - 1) + 1 := by omega
      rw [hsub, List.getElem?_cons_succ] at hget
      have hmem : mi ∈ tms := List.getElem?_mem hget
      obtain ⟨tc, htc, hid⟩ := htms mi hmem
      refine ⟨conv.length, amsg, tcs, tc, hlt, ?_, ha, hatcs, htc, hid⟩
      rw [List.getElem?_append_right (le_refl conv.length), Nat.sub_self]
      simp

/-- The loop preserves the tool-call reference invariant. -/
theorem runLoop_toolRefOK (P : Provider) (H : Option Handler) (m : Int) :
    ∀ (fuel : Nat) (conv : List MessageWithTool) (c : Nat)
      (f : Option ChatWithToolsResponse) (p : Nat),
      ToolRefOK conv → ToolRefOK (runLoop P H m fuel conv c f p).conversation := by
  intro fuel
  induction fuel with
  | zero => intro conv c f p hok; simpa [runLoop_zero] using hok
  | succ fuel ih =>
    intro conv c f p hok
    by_cases hlt : (c : Int) < m
    · rcases htc : (P conv).toolCalls with _ | ⟨_ | ⟨tc, rest⟩⟩
      · rw [runLoop_succ_lt_none P H m fuel conv c f p hlt htc]; exact hok
      · rw [runLoop_succ_lt_nil P H m fuel conv c f p hlt htc]; exact hok
      · have hstep : ToolRefOK
            (conv ++ assistantMessage (P conv) :: (processBatch H m (tc :: rest) c).msgs) := by
          refine toolRefOK_append conv (assistantMessage (P conv))
            (processBatch H m (tc :: rest) c).msgs (tc :: rest) hok rfl ?_ ?_
          · simp [assistantMessage, htc]
          · intro mt hmt
            obtain ⟨tc', htc', heq⟩ := processBatch_msgs_executeOne H m (tc :: rest) c mt hmt
            exact ⟨tc', htc', by rw [heq]; exact executeOne_toolCallId H tc'⟩
        rw [runLoop_succ_lt_cons P H m fuel conv c f p tc rest hlt htc]
        split_ifs with hr
        · exact hstep
        · exact ih _ _ _ _ hstep
    · rw [runLoop_succ_ge P H m fuel conv c f p hlt]; exact hok

/-! ### Boundary conversion lemmas -/

/-- Lifting a boundary message never produces the `tool` role. -/
theorem liftRole_ne_tool (r : Role) : liftRole r ≠ RoleWithTool.tool := by
  cases r <;> simp [liftRole]

/-- Collapsing is a left inverse of lifting: initial messages survive the
round trip into and out of the loop unchanged. -/
theorem collapseMessage_liftMessage (msg : Message) :
    collapseMessage (liftMessage msg) = msg := by
  rcases msg with ⟨r, ct⟩
  cases r <;> rfl

/-- An initial conversation lifted from boundary messages satisfies the
tool-call reference invariant vacuously (it contains no tool-role message). -/
theorem toolRefOK_lift (msgs : List Message) : ToolRefOK (msgs.map liftMessage) := by
  intro i mi hget hrole
  exfalso
  rw [List.getElem?_map] at hget
  rcases hmsg : msgs[i]? with _ | msg
  · rw [hmsg] at hget; exact Option.noConfusion hget
  · rw [hmsg] at hget
    have hmi : liftMessage msg = mi := Option.some.inj hget
    rw [← hmi] at hrole
    exact liftRole_ne_tool msg.role hrole

/-! ### Projection lemmas for the top-level function -/

/-- `executeToolLoopInternal` unfolded to its `runLoop` call. -/
theorem executeToolLoopInternal_eq (P : Provider) (options : ToolLoopOptions) :
    executeToolLoopInternal P options =
      runLoop P options.onToolCall (options.maxToolCalls.getD 10)
        ((options.maxToolCalls.getD 10).toNat + 1)
        ((options.messages.getD []).map liftMessage) 0 none 0 := rfl

/-- The returned `toolCallCount` is the loop's counter. -/
theorem executeToolLoop_toolCallCount (P : Provider) (options : ToolLoopOptions) :
    (executeToolLoop P options).toolCallCount =
      (executeToolLoopInternal P options).toolCallCount := rfl

/-- The returned `finalResponse` is the loop's last stored response. -/
theorem executeToolLoop_finalResponse (P : Provider) (options : ToolLoopOptions) :
    (executeToolLoop P options).finalResponse =
      (executeToolLoopInternal P options).finalResponse := rfl

/-- The returned transcript is the boundary projection of the loop's
conversation. -/
theorem executeToolLoop_messages (P : Provider) (options : ToolLoopOptions) :
    (executeToolLoop P options).messages =
      (executeToolLoopInternal P options).conversation.map collapseMessage := rfl

/-- The returned flag is the loop-body flag, forced to `true` whenever the
final counter reached the ceiling (tool-loop.ts lines 237-240). -/
theorem executeToolLoop_reached (P : Provider) (options : ToolLoopOptions) :
    (executeToolLoop P options).maxToolCallsReached =
      ((executeToolLoopInternal P options).reachedFlag ||
        decide (options.maxToolCalls.getD 10 ≤
          ((executeToolLoopInternal P options).toolCallCount : Int))) := rfl

/-- Boundary projection is a left inverse of lifting, on whole lists. -/
theorem collapse_lift_map (msgs : List Message) :
    (msgs.map liftMessage).map collapseMessage = msgs := by
  induction msgs with
  | nil => rfl
  | cons msg rest ih => simp [ih, collapseMessage_liftMessage]

/-- With a nonpositive ceiling the loop guard fails immediately: no provider
call, zero counter, no stored response. -/
theorem executeToolLoopInternal_nonpos (P : Provider) (onTC : Option Handler)
    (msgs : List Message) (m : Int) (hm : m ≤ 0) :
    executeToolLoopInternal P ⟨onTC, some m, some msgs⟩ =
      ⟨msgs.map liftMessage, 0, false, none, 0⟩ := by
  have h0 : m.toNat = 0 := by omega
  rw [executeToolLoopInternal_eq]
  simp only [Option.getD_some, h0]
  exact runLoop_succ_ge P onTC m 0 (msgs.map liftMessage) 0 none 0 (by push_cast; omega)

/-! ### Claim theorems -/

/-- C1: for every run of the tool loop with a validly configured ceiling
(`maxToolCalls ≥ 1`, the spec's domain), whatever responses the provider
returns, the returned `toolCallCount` never exceeds the ceiling, and the
returned `maxToolCallsReached` flag is `true` exactly when `toolCallCount`
has reached the ceiling (whether set mid-batch or by the final boundary
check). -/
theorem toolLoop_ceiling_enforced (P : Provider) (options : ToolLoopOptions)
    (h : 1 ≤ options.maxToolCalls.getD 10) :
    ((executeToolLoop P options).toolCallCount : Int) ≤ options.maxToolCalls.getD 10 ∧
    ((executeToolLoop P options).maxToolCallsReached = true ↔
      options.maxToolCalls.getD 10 ≤ ((executeToolLoop P options).toolCallCount : Int)) := by
  constructor
  · rw [executeToolLoop_toolCallCount, executeToolLoopInternal_eq]
    exact runLoop_count_le P options.onToolCall (options.maxToolCalls.getD 10)
      _ _ 0 none 0 (by push_cast; omega)
  · rw [executeToolLoop_reached, executeToolLoop_toolCallCount]
    constructor
    · intro hor
      simp only [Bool.or_eq_true, decide_eq_true_eq] at hor
      rcases hor with hflag | hdec
      · rw [executeToolLoopInternal_eq] at hflag ⊢
        exact runLoop_reached_imp P options.onToolCall (options.maxToolCalls.getD 10)
          _ _ 0 none 0 hflag
      · exact hdec
    · intro hge
      simp only [Bool.or_eq_true, decide_eq_true_eq]
      exact Or.inr hge

/-- C1 witness: ceiling 2 with a provider that always requests two tool
calls; the hypotheses of `toolLoop_ceiling_enforced` hold and the bound and
equivalence follow at this input. -/
theorem toolLoop_ceiling_enforced_witness :
    1 ≤ (ToolLoopOptions.mk (some okHandler) (some 2) (some [userMsg])).maxToolCalls.getD 10 ∧
    (((executeToolLoop providerAlwaysTwo
        ⟨some okHandler, some 2, some [userMsg]⟩).toolCallCount : Int) ≤
      (ToolLoopOptions.mk (some okHandler) (some 2) (some [userMsg])).maxToolCalls.getD 10 ∧
    ((executeToolLoop providerAlwaysTwo
        ⟨some okHandler, some 2, some [userMsg]⟩).maxToolCallsReached = true ↔
      (ToolLoopOptions.mk (some okHandler) (some 2) (some [userMsg])).maxToolCalls.getD 10 ≤
        ((executeToolLoop providerAlwaysTwo
          ⟨some okHandler, some 2, some [userMsg]⟩).toolCallCount : Int))) :=
  ⟨by decide,
   toolLoop_ceiling_enforced providerAlwaysTwo
     ⟨some okHandler, some 2, some [userMsg]⟩ (by decide)⟩

/-- C2: the claim states that `toolCallCount` equals the number of tool calls
actually executed (handler run, or a placeholder/error message recorded),
with ceiling-dropped calls not counted.  The code violates this: with ceiling
1 and one requested call, the call is counted (`toolCallCount = 1`) but the
loop breaks before executing it, so the conversation records zero tool-role
result messages.  Every executed call appends exactly one tool-role message,
so the mismatch `toolCallCount = 1` vs. zero tool-role messages exhibits the
divergence. -/
theorem toolLoop_counted_call_not_executed :
    (executeToolLoopInternal providerAlwaysOne
      ⟨some okHandler, some 1, some [userMsg]⟩).toolCallCount = 1 ∧
    ((executeToolLoopInternal providerAlwaysOne
        ⟨some okHandler, some 1, some [userMsg]⟩).conversation.filter
      fun mw => decide (mw.role = RoleWithTool.tool)).length = 0 ∧
    (executeToolLoop providerAlwaysOne
      ⟨some okHandler, some 1, some [userMsg]⟩).toolCallCount = 1 ∧
    (executeToolLoopInternal providerAlwaysOne
      ⟨some okHandler, some 1, some [userMsg]⟩).providerCalls = 1 := by
  decide

/-- C3: the claim states that with ceiling 2 and a provider always requesting
two tool calls, the handler is executed for both calls.  The code instead
drops the second (ceiling-hitting) call: the full run produces exactly one
tool-result message (for `tcA` only), while still reporting
`toolCallCount = 2`, `maxToolCallsReached = true`, and one provider call —
the exact internal state below exhibits it. -/
theorem toolLoop_ceiling_example_drops_second_call :
    executeToolLoopInternal providerAlwaysTwo
      ⟨some okHandler, some 2, some [userMsg]⟩ =
      ⟨[liftMessage userMsg,
        assistantMessage { text := "t", toolCalls := some [tcA, tcB] },
        toolSuccessMessage tcA (some ⟨"a", "toolA", JsonValue.jstr "done"⟩)],
       2, true, some { text := "t", toolCalls := some [tcA, tcB] }, 1⟩ ∧
    (executeToolLoop providerAlwaysTwo
      ⟨some okHandler, some 2, some [userMsg]⟩).maxToolCallsReached = true ∧
    (executeToolLoop providerAlwaysTwo
      ⟨some okHandler, some 2, some [userMsg]⟩).toolCallCount = 2 := by
  decide

/-- C4: the claim states that a ceiling below 1 is rejected before any
provider call.  The code does skip the provider entirely (`providerCalls = 0`),
but it resolves successfully instead of rejecting, returning
`finalResponse = none` (the violated `finalResponse!` non-null assertion) and
`maxToolCallsReached = true`. -/
theorem toolLoop_zero_ceiling_resolves (P : Provider) (onTC : Option Handler)
    (msgs : List Message) :
    executeToolLoopInternal P ⟨onTC, some 0, some msgs⟩ =
      ⟨msgs.map liftMessage, 0, false, none, 0⟩ ∧
    (executeToolLoop P ⟨onTC, some 0, some msgs⟩).finalResponse = none ∧
    (executeToolLoop P ⟨onTC, some 0, some msgs⟩).maxToolCallsReached = true := by
  have hint := executeToolLoopInternal_nonpos P onTC msgs 0 le_rfl
  refine ⟨hint, ?_, ?_⟩
  · rw [executeToolLoop_finalResponse, hint]
  · rw [executeToolLoop_reached, hint]
    simp

/-- C9: for every call with `maxToolCalls ≤ 0` the loop body never runs: no
provider call is made, the function resolves normally (it is total and
returns a `ToolLoopResult`), with `toolCallCount = 0`,
`maxToolCallsReached = true`, and `finalResponse = none` — the modelled value
of the `undefined` that the source's non-null assertion `finalResponse!`
passes through in violation of the declared non-optional type. -/
theorem toolLoop_nonpositive_ceiling_behavior (P : Provider)
    (onTC : Option Handler) (msgs : List Message) (m : Int) (hm : m ≤ 0) :
    executeToolLoop P ⟨onTC, some m, some msgs⟩ = ⟨none, 0, true, msgs⟩ ∧
    (executeToolLoopInternal P ⟨onTC, some m, some msgs⟩).providerCalls = 0 := by
  have hint := executeToolLoopInternal_nonpos P onTC msgs m hm
  refine ⟨?_, by rw [hint]⟩
  have hmsg := executeToolLoop_messages P ⟨onTC, some m, some msgs⟩
  have hfin := executeToolLoop_finalResponse P ⟨onTC, some m, some msgs⟩
  have hcnt := executeToolLoop_toolCallCount P ⟨onTC, some m, some msgs⟩
  have hflag := executeToolLoop_reached P ⟨onTC, some m, some msgs⟩
  rw [hint] at hmsg hfin hcnt hflag
  rcases hres : executeToolLoop P ⟨onTC, some m, some msgs⟩ with ⟨fr, tcc, mr, ms⟩
  rw [hres] at hmsg hfin hcnt hflag
  dsimp only at hmsg hfin hcnt hflag
  subst hfin hcnt
  rw [hmsg, collapse_lift_map]
  rw [hflag]
  simp only [ToolLoopResult.mk.injEq, true_and, and_true, Bool.false_or,
    decide_eq_true_eq, Option.getD_some, Nat.cast_zero]
  omega

/-- C9 witness: at `maxToolCalls = 0` with a trivial provider the hypothesis
holds and the conclusion evaluates. -/
theorem toolLoop_nonpositive_ceiling_behavior_witness :
    (0 : Int) ≤ 0 ∧
    (executeToolLoop providerDone ⟨none, some 0, some [userMsg]⟩ =
      ⟨none, 0, true, [userMsg]⟩ ∧
    (executeToolLoopInternal providerDone ⟨none, some 0, some [userMsg]⟩).providerCalls = 0) :=
  ⟨by decide,
   toolLoop_nonpositive_ceiling_behavior providerDone none [userMsg] 0 (by decide)⟩

/-- C5: if the provider's first response carries zero (or absent) tool calls
and the ceiling is at least 1, the loop performs exactly one provider call
and returns that response verbatim as `finalResponse`, with
`toolCallCount = 0`, `maxToolCallsReached = false`, and the transcript equal
to the initial messages. -/
theorem toolLoop_no_tools_idempotent (P : Provider) (options : ToolLoopOptions)
    (hm : 1 ≤ options.maxToolCalls.getD 10)
    (hresp : (P ((options.messages.getD []).map liftMessage)).toolCalls = none ∨
             (P ((options.messages.getD []).map liftMessage)).toolCalls = some []) :
    executeToolLoop P options =
      ⟨some (P ((options.messages.getD []).map liftMessage)), 0, false,
        options.messages.getD []⟩ ∧
    (executeToolLoopInternal P options).providerCalls = 1 := by
  have hlt : ((0 : Nat) : Int) < options.maxToolCalls.getD 10 := by push_cast; omega
  have hint : executeToolLoopInternal P options =
      ⟨(options.messages.getD []).map liftMessage, 0, false,
        some (P ((options.messages.getD []).map liftMessage)), 1⟩ := by
    rw [executeToolLoopInternal_eq]
    rcases hresp with hre | hre
    · exact runLoop_succ_lt_none P options.onToolCall _ _ _ 0 none 0 hlt hre
    · exact runLoop_succ_lt_nil P options.onToolCall _ _ _ 0 none 0 hlt hre
  refine ⟨?_, by rw [hint]⟩
  have hmsg := executeToolLoop_messages P options
  have hfin := executeToolLoop_finalResponse P options
  have hcnt := executeToolLoop_toolCallCount P options
  have hflag := executeToolLoop_reached P options
  rw [hint] at hmsg hfin hcnt hflag
  rcases hres : executeToolLoop P options with ⟨fr, tcc, mr, ms⟩
  rw [hres] at hmsg hfin hcnt hflag
  dsimp only at hmsg hfin hcnt hflag
  subst hfin hcnt
  rw [hmsg, collapse_lift_map, hflag]
  simp only [ToolLoopResult.mk.injEq, true_and, and_true, Bool.false_or,
    decide_eq_false_iff_not, not_le, Nat.cast_zero]
  omega

/-- C5 witness: the default ceiling 10 and a provider that never requests
tools; one provider call, verbatim final response, zero counter. -/
theorem toolLoop_no_tools_idempotent_witness :
    1 ≤ (ToolLoopOptions.mk none none (some [userMsg])).maxToolCalls.getD 10 ∧
    (executeToolLoop providerDone ⟨none, none, some [userMsg]⟩ =
      ⟨some { text := "done" }, 0, false, [userMsg]⟩ ∧
    (executeToolLoopInternal providerDone ⟨none, none, some [userMsg]⟩).providerCalls = 1) :=
  ⟨by decide,
   toolLoop_no_tools_idempotent providerDone ⟨none, none, some [userMsg]⟩ (by decide)
     (Or.inl rfl)⟩

/-- C7: the transcript grows monotonically.  (1) The (lifted) initial
messages survive as an unchanged initial segment of the internal
conversation; (2) the returned transcript starts with the initial messages
unchanged (same order, role, content); (3) the returned transcript is at
least as long as the initial list; (4) every loop step only appends: the
conversation a loop invocation starts from is an initial segment of the one
it returns (no message rewritten or removed); (5) every tool-result
message's `toolCallId` references a `ToolCall.id` from an earlier assistant
message's tool-call list. -/
theorem toolLoop_transcript_monotone (P : Provider) (options : ToolLoopOptions) :
    (∃ t, ((options.messages.getD []).map liftMessage) ++ t =
        (executeToolLoopInternal P options).conversation) ∧
    (executeToolLoop P options).messages.take (options.messages.getD []).length =
      options.messages.getD [] ∧
    (options.messages.getD []).length ≤ (executeToolLoop P options).messages.length ∧
    (∀ (fuel : Nat) (conv : List MessageWithTool) (c : Nat)
        (f : Option ChatWithToolsResponse) (p : Nat),
      ∃ t, conv ++ t =
        (runLoop P options.onToolCall (options.maxToolCalls.getD 10)
          fuel conv c f p).conversation) ∧
    ToolRefOK (executeToolLoopInternal P options).conversation := by
  obtain ⟨t, ht⟩ : ∃ t, ((options.messages.getD []).map liftMessage) ++ t =
      (executeToolLoopInternal P options).conversation := by
    rw [executeToolLoopInternal_eq]
    exact runLoop_conv_extend P options.onToolCall _ _ _ 0 none 0
  refine ⟨⟨t, ht⟩, ?_, ?_, ?_, ?_⟩
  · rw [executeToolLoop_messages, ← ht, List.map_append, collapse_lift_map]
    exact List.take_left _ _
  · rw [executeToolLoop_messages, ← ht]
    simp only [List.length_map, List.length_append]
    omega
  · intro fuel conv c f p
    exact runLoop_conv_extend P options.onToolCall _ fuel conv c f p
  · rw [executeToolLoopInternal_eq]
    exact runLoop_toolRefOK P options.onToolCall _ _ _ 0 none 0 (toolRefOK_lift _)

/-- C8: the returned transcript is in boundary `Message` form.  It equals the
internal conversation mapped through the projection that keeps only
`{role, content}`; the projection preserves content, maps the internal
`tool` role to `assistant` (dropping `toolName`, `toolCallId`, `toolCalls`),
and is the identity on the other roles; every returned message's role is one
of `system`, `user`, `assistant`. -/
theorem toolLoop_boundary_messages (P : Provider) (options : ToolLoopOptions) :
    (executeToolLoop P options).messages =
      (executeToolLoopInternal P options).conversation.map collapseMessage ∧
    (∀ mw : MessageWithTool, (collapseMessage mw).content = mw.content) ∧
    (∀ (ct : String) (tn tid : Option String) (tcs : Option (List ToolCall)),
      collapseMessage ⟨RoleWithTool.tool, ct, tn, tid, tcs⟩ = ⟨Role.assistant, ct⟩) ∧
    (∀ (ct : String) (tn tid : Option String) (tcs : Option (List ToolCall)),
      collapseMessage ⟨RoleWithTool.system, ct, tn, tid, tcs⟩ = ⟨Role.system, ct⟩) ∧
    (∀ (ct : String) (tn tid : Option String) (tcs : Option (List ToolCall)),
      collapseMessage ⟨RoleWithTool.user, ct, tn, tid, tcs⟩ = ⟨Role.user, ct⟩) ∧
    (∀ (ct : String) (tn tid : Option String) (tcs : Option (List ToolCall)),
      collapseMessage ⟨RoleWithTool.assistant, ct, tn, tid, tcs⟩ = ⟨Role.assistant, ct⟩) ∧
    ((executeToolLoop P options).messages.all fun msg =>
      decide (msg.role = Role.system) || decide (msg.role = Role.user) ||
        decide (msg.role = Role.assistant)) = true := by
  refine ⟨rfl, fun mw => rfl, fun ct tn tid tcs => rfl, fun ct tn tid tcs => rfl,
    fun ct tn tid tcs => rfl, fun ct tn tid tcs => rfl, ?_⟩
  rw [List.all_eq_true]
  intro msg _
  rcases msg with ⟨r, ct⟩
  cases r <;> simp

/-- C6: when the handler throws for tool call `A`, the loop appends a
tool-role message whose content names the failing tool and the reason, with
`toolCallId` set but no `toolName`, and does not abort: the next call `B` of
the same batch (both before the ceiling, `m ≥ 3`) is still executed and
records its own result right after, and the loop proceeds to at least a
second provider call instead of rejecting. -/
theorem toolLoop_handler_failure_isolated
    (P : Provider) (h : Handler) (msgs : List Message) (m : Int)
    (A B : ToolCall) (e : String) (tr : ToolResponse) (t : String)
    (hm : 3 ≤ m)
    (hresp : P (msgs.map liftMessage) = { text := t, toolCalls := some [A, B] })
    (hA : h A = Except.error e)
    (hB : h B = Except.ok tr) :
    (executeToolLoopInternal P ⟨some h, some m, some msgs⟩).conversation.take
        (msgs.length + 3) =
      msgs.map liftMessage ++
        [assistantMessage { text := t, toolCalls := some [A, B] },
         toolErrorMessage A e,
         toolSuccessMessage B (some tr)] ∧
    2 ≤ (executeToolLoopInternal P ⟨some h, some m, some msgs⟩).providerCalls ∧
    (toolErrorMessage A e).content = "Error executing tool " ++ A.name ++ ": " ++ e ∧
    (toolErrorMessage A e).toolCallId = some A.id ∧
    (toolErrorMessage A e).toolName = none := by
  have hb : processBatch (some h) m [A, B] 0 =
      ⟨[toolErrorMessage A e, toolSuccessMessage B (some tr)], 2, false⟩ := by
    rw [processBatch_not_reached (some h) m [A, B] 0
      (by simp only [List.length_cons, List.length_nil]; push_cast; omega)]
    simp [executeOne, hA, hB]
  have htc : (P (msgs.map liftMessage)).toolCalls = some (A :: [B]) := by rw [hresp]
  have hstep : executeToolLoopInternal P ⟨some h, some m, some msgs⟩ =
      runLoop P (some h) m m.toNat
        (msgs.map liftMessage ++
          [assistantMessage { text := t, toolCalls := some [A, B] },
           toolErrorMessage A e, toolSuccessMessage B (some tr)])
        2 (some { text := t, toolCalls := some [A, B] }) 1 := by
    rw [executeToolLoopInternal_eq]
    simp only [Option.getD_some]
    rw [runLoop_succ_lt_cons P (some h) m m.toNat (msgs.map liftMessage) 0 none 0 A [B]
      (by push_cast; omega) htc]
    rw [hb]
    dsimp only
    rw [if_neg (by simp)]
    rw [hresp]
  refine ⟨?_, ?_, rfl, rfl, rfl⟩
  · obtain ⟨t2, ht2⟩ := runLoop_conv_extend P (some h) m m.toNat
      (msgs.map liftMessage ++
        [assistantMessage { text := t, toolCalls := some [A, B] },
         toolErrorMessage A e, toolSuccessMessage B (some tr)])
      2 (some { text := t, toolCalls := some [A, B] }) 1
    rw [hstep, ← ht2]
    have hlen : (msgs.map liftMessage ++
        [assistantMessage { text := t, toolCalls := some [A, B] },
         toolErrorMessage A e, toolSuccessMessage B (some tr)]).length =
        msgs.length + 3 := by
      simp
    rw [← hlen]
    exact List.take_left _ _
  · rw [hstep]
    obtain ⟨k, hk⟩ : ∃ k, m.toNat = k + 1 := ⟨m.toNat - 1, by omega⟩
    rw [hk]
    exact runLoop_pcalls_lt P (some h) m k _ 2 _ 1 (by push_cast; omega)

/-- C6 witness: ceiling 3, a handler that throws `"boom"` for `tcA` and
succeeds for `tcB`, a provider requesting `[tcA, tcB]` on the first turn;
the hypotheses hold and the error-then-success transcript segment and the
second provider call follow. -/
theorem toolLoop_handler_failure_isolated_witness :
    ((3 : Int) ≤ 3 ∧
      providerFailBatch ([userMsg].map liftMessage) =
        { text := "t1", toolCalls := some [tcA, tcB] } ∧
      failHandler tcA = Except.error "boom" ∧
      failHandler tcB = Except.ok ⟨"b", "toolB", JsonValue.jstr "ok"⟩) ∧
    ((executeToolLoopInternal providerFailBatch
        ⟨some failHandler, some 3, some [userMsg]⟩).conversation.take
          (([userMsg] : List Message).length + 3) =
      [userMsg].map liftMessage ++
        [assistantMessage { text := "t1", toolCalls := some [tcA, tcB] },
         toolErrorMessage tcA "boom",
         toolSuccessMessage tcB (some ⟨"b", "toolB", JsonValue.jstr "ok"⟩)] ∧
    2 ≤ (executeToolLoopInternal providerFailBatch
        ⟨some failHandler, some 3, some [userMsg]⟩).providerCalls ∧
    (toolErrorMessage tcA "boom").content =
      "Error executing tool " ++ tcA.name ++ ": " ++ "boom" ∧
    (toolErrorMessage tcA "boom").toolCallId = some tcA.id ∧
    (toolErrorMessage tcA "boom").toolName = none) :=
  ⟨⟨by decide, rfl, rfl, rfl⟩,
   toolLoop_handler_failure_isolated providerFailBatch failHandler [userMsg] 3
     tcA tcB "boom" ⟨"b", "toolB", JsonValue.jstr "ok"⟩ "t1"
     (by decide) rfl rfl rfl⟩

/-- C10: whenever the ceiling forces calls of a batch to be dropped (the
batch is at least as long as the remaining capacity `m - c`), the
assistant-role message appended for that turn still records the full
requested tool-call list, while the transcript gains result messages only
for the executed strict prefix (`(m - c).toNat - 1` calls) — each dropped
call, the ceiling-hitting one included, contributes no tool-role message —
and the loop exits with the counter at the ceiling and the flag set. -/
theorem toolLoop_dropped_batch_recorded
    (P : Provider) (H : Option Handler) (m : Int) (fuel : Nat)
    (conv : List MessageWithTool) (c : Nat)
    (f : Option ChatWithToolsResponse) (p : Nat) (t : String) (tcs : List ToolCall)
    (hresp : P conv = { text := t, toolCalls := some tcs })
    (hc : (c : Int) < m) (hlen : m ≤ (c : Int) + tcs.length) :
    (runLoop P H m (fuel + 1) conv c f p).conversation =
      conv ++ assistantMessage { text := t, toolCalls := some tcs } ::
        ((tcs.take ((m - c).toNat - 1)).map (executeOne H)) ∧
    (assistantMessage { text := t, toolCalls := some tcs }).toolCalls = some tcs ∧
    (runLoop P H m (fuel + 1) conv c f p).toolCallCount = c + (m - c).toNat ∧
    (runLoop P H m (fuel + 1) conv c f p).reachedFlag = true := by
  rcases tcs with _ | ⟨tc, rest⟩
  · exfalso
    simp only [List.length_nil, Nat.cast_zero, add_zero] at hlen
    omega
  · have htc : (P conv).toolCalls = some (tc :: rest) := by rw [hresp]
    have hbr := processBatch_reached H m (tc :: rest) c hc hlen
    rw [runLoop_succ_lt_cons P H m fuel conv c f p tc rest hc htc, hbr]
    dsimp only
    rw [if_pos rfl, hresp]
    exact ⟨rfl, rfl, rfl, rfl⟩

/-- C10 witness: ceiling 2, counter 0, a provider requesting three calls:
the assistant message records all three, exactly one (`tcA`) is executed,
and the loop stops with counter 2 and flag set. -/
theorem toolLoop_dropped_batch_recorded_witness :
    (providerAlwaysThree [liftMessage userMsg] =
        { text := "t", toolCalls := some [tcA, tcB, tcC] } ∧
      ((0 : Nat) : Int) < 2 ∧
      (2 : Int) ≤ ((0 : Nat) : Int) + ([tcA, tcB, tcC] : List ToolCall).length) ∧
    ((runLoop providerAlwaysThree (some okHandler) 2 (0 + 1)
        [liftMessage userMsg] 0 none 0).conversation =
      [liftMessage userMsg] ++
        assistantMessage { text := "t", toolCalls := some [tcA, tcB, tcC] } ::
          (([tcA, tcB, tcC].take (((2 : Int) - ((0 : Nat) : Int)).toNat - 1)).map
            (executeOne (some okHandler))) ∧
    (assistantMessage { text := "t", toolCalls := some [tcA, tcB, tcC] }).toolCalls =
      some [tcA, tcB, tcC] ∧
    (runLoop providerAlwaysThree (some okHandler) 2 (0 + 1)
        [liftMessage userMsg] 0 none 0).toolCallCount =
      0 + ((2 : Int) - ((0 : Nat) : Int)).toNat ∧
    (runLoop providerAlwaysThree (some okHandler) 2 (0 + 1)
        [liftMessage userMsg] 0 none 0).reachedFlag = true) :=
  ⟨⟨by decide, by decide, by decide⟩,
   toolLoop_dropped_batch_recorded providerAlwaysThree (some okHandler) 2 0
     [liftMessage userMsg] 0 none 0 "t" [tcA, tcB, tcC]
     (by decide) (by decide) (by decide)⟩

end DeepAgents
